import Mathlib

/-!
Verification of the Chess-Variant-64 rule engine and game controller.

The repository contains two game-controller variants (one with a per-player
removal budget and a turn clock, one without) and a timer component.  The
controllers are embedded here directly from the source.  The core rule
functions (`initializeBoard`, `isValidMove`, `makeMove`, `isInCheck`,
`isCheckmate`, `updateCastlingRights`) live in a module that is not part of
the available sources, so they are modelled from the specification text
(sections 4.1-4.7 and 6); each such definition carries a doc comment saying
so.
-/

namespace Chess

/-- Player colour, named `Player` as in the source type declarations. -/
inductive Player where
  | white
  | black
deriving DecidableEq

/-- The opposite colour, as computed inline by the controllers
(`prev.currentPlayer === 'white' ? 'black' : 'white'`). -/
def Player.opposite : Player → Player
  | .white => .black
  | .black => .white

inductive PieceType where
  | king
  | queen
  | rook
  | bishop
  | knight
  | pawn
deriving DecidableEq

structure Piece where
  type : PieceType
  color : Player
deriving DecidableEq

/-- A board coordinate, `[row, col]` in the source. -/
abbrev Position := Nat × Nat

/-- An 8x8 grid of optional pieces, indexed `[row][col]`. -/
abbrev Board := List (List (Option Piece))

/-- Reading `board[row][col]`; out-of-range access yields `none`. -/
def boardGet (b : Board) (p : Position) : Option Piece :=
  ((b[p.1]?).bind fun row => row[p.2]?).join

/-- Writing one square of the grid; out-of-range writes are dropped. -/
def boardSet (b : Board) (p : Position) (v : Option Piece) : Board :=
  match b[p.1]? with
  | some row => b.set p.1 (row.set p.2 v)
  | none => b

structure CastlingRights where
  whiteKingside : Bool
  whiteQueenside : Bool
  blackKingside : Bool
  blackQueenside : Bool
deriving DecidableEq

structure KingMovedFlags where
  white : Bool
  black : Bool
deriving DecidableEq

structure RookMovedFlags where
  whiteKingside : Bool
  whiteQueenside : Bool
  blackKingside : Bool
  blackQueenside : Bool
deriving DecidableEq

/-- A per-player pair of natural numbers (used for `removalsUsed` and
`timeLeft` in the budgeted controller's game state). -/
structure PlayerNat where
  white : Nat
  black : Nat
deriving DecidableEq

def PlayerNat.get (v : PlayerNat) : Player → Nat
  | .white => v.white
  | .black => v.black

def PlayerNat.set (v : PlayerNat) : Player → Nat → PlayerNat
  | .white, n => { v with white := n }
  | .black, n => { v with black := n }

/-- The back rank of the given colour, queen on column 3, king on column 4. -/
def backRank (c : Player) : List (Option Piece) :=
  [some ⟨.rook, c⟩, some ⟨.knight, c⟩, some ⟨.bishop, c⟩, some ⟨.queen, c⟩,
   some ⟨.king, c⟩, some ⟨.bishop, c⟩, some ⟨.knight, c⟩, some ⟨.rook, c⟩]

def pawnRank (c : Player) : List (Option Piece) :=
  List.replicate 8 (some ⟨.pawn, c⟩)

def emptyRank : List (Option Piece) :=
  List.replicate 8 none

/-- Modelled from the spec: `initializeBoard() -> Board` (section 6, 4.1) is
not among the available sources.  It produces the standard chess starting
arrangement; rows 0/7 are the back ranks, black on rows 0-1 and white on
rows 6-7 (the orientation the controllers assume: white to move first from
the bottom of the rendered board). -/
def initializeBoard : Board :=
  [backRank .black, pawnRank .black, emptyRank, emptyRank,
   emptyRank, emptyRank, pawnRank .white, backRank .white]

/-- Row of the given colour's back rank (7 for white, 0 for black). -/
def homeRow : Player → Nat
  | .white => 7
  | .black => 0

/-- Starting rank of the given colour's pawns. -/
def pawnStart : Player → Nat
  | .white => 6
  | .black => 1

def inBounds (p : Position) : Bool :=
  decide (p.1 < 8) && decide (p.2 < 8)

/-- One coordinate moved `k` steps from `x` in the direction of `y`
(unchanged when `x = y`). -/
def towardN (x y k : Nat) : Nat :=
  if x < y then x + k else if y < x then x - k else x

/-- The squares strictly between `a` and `b` along the straight line from
`a` to `b` (meaningful when the two are on a common row, column or
diagonal). -/
def betweenSquares (a b : Position) : List Position :=
  let n := max (Nat.dist a.1 b.1) (Nat.dist a.2 b.2)
  (List.range (n - 1)).map fun k =>
    (towardN a.1 b.1 (k + 1), towardN a.2 b.2 (k + 1))

/-- Every square strictly between `f` and `t` is empty and not removed:
the spec's uniform sliding rule (4.3), where a removed square blocks a ray
exactly as an occupied square would. -/
def pathClear (b : Board) (rem : List Position) (f t : Position) : Bool :=
  (betweenSquares f t).all fun p =>
    (boardGet b p).isNone && !(decide (p ∈ rem))

def knightGeom (f t : Position) : Bool :=
  let dr := Nat.dist f.1 t.1
  let dc := Nat.dist f.2 t.2
  decide ((dr = 1 ∧ dc = 2) ∨ (dr = 2 ∧ dc = 1))

def kingGeom (f t : Position) : Bool :=
  decide (Nat.dist f.1 t.1 ≤ 1 ∧ Nat.dist f.2 t.2 ≤ 1 ∧ f ≠ t)

def bishopGeom (f t : Position) : Bool :=
  decide (Nat.dist f.1 t.1 = Nat.dist f.2 t.2 ∧ f ≠ t)

def rookGeom (f t : Position) : Bool :=
  decide ((f.1 = t.1 ∨ f.2 = t.2) ∧ f ≠ t)

def queenGeom (f t : Position) : Bool :=
  bishopGeom f t || rookGeom f t

/-- One-square pawn advance row relation for the given colour (white moves
toward row 0, black toward row 7). -/
def pawnStepRow (c : Player) (fr tr : Nat) : Bool :=
  match c with
  | .white => decide (fr = tr + 1)
  | .black => decide (tr = fr + 1)

/-- Two-square pawn advance row relation. -/
def pawnDoubleRow (c : Player) (fr tr : Nat) : Bool :=
  match c with
  | .white => decide (fr = tr + 2)
  | .black => decide (tr = fr + 2)

/-- The square a pawn passes over on a two-square advance. -/
def pawnMid (c : Player) (f : Position) : Position :=
  match c with
  | .white => (f.1 - 1, f.2)
  | .black => (f.1 + 1, f.2)

/-- Modelled from the spec: pseudo-legal movement geometry of section 4.3
for each piece type (the movement-rule half of the missing `chessLogic`
module).  Removed squares block sliding rays and pawn double-steps exactly
like occupied squares; the separate destination checks (not removed, not
same colour) are applied uniformly by `isValidMove`. -/
def pieceGeomOk (b : Board) (rem : List Position) (pc : Piece)
    (f t : Position) : Bool :=
  match pc.type with
  | .pawn =>
      (decide (t.2 = f.2) && pawnStepRow pc.color f.1 t.1 &&
        (boardGet b t).isNone) ||
      (decide (t.2 = f.2) && decide (f.1 = pawnStart pc.color) &&
        pawnDoubleRow pc.color f.1 t.1 &&
        (boardGet b (pawnMid pc.color f)).isNone &&
        !(decide (pawnMid pc.color f ∈ rem)) &&
        (boardGet b t).isNone) ||
      (pawnStepRow pc.color f.1 t.1 && decide (Nat.dist f.2 t.2 = 1) &&
        (match boardGet b t with
         | some q => decide (q.color ≠ pc.color)
         | none => false))
  | .knight => knightGeom f t
  | .king => kingGeom f t
  | .bishop => bishopGeom f t && pathClear b rem f t
  | .rook => rookGeom f t && pathClear b rem f t
  | .queen => queenGeom f t && pathClear b rem f t

/-- Modelled from the spec: "attack mode" of the check detector (4.5) -
the destinations a piece attacks, with pawns attacking diagonally only,
ignoring the forward-move-only restriction and target occupancy. -/
def attacksSquare (b : Board) (rem : List Position) (pc : Piece)
    (f sq : Position) : Bool :=
  !(decide (sq ∈ rem)) &&
  match pc.type with
  | .pawn => pawnStepRow pc.color f.1 sq.1 && decide (Nat.dist f.2 sq.2 = 1)
  | .knight => knightGeom f sq
  | .king => kingGeom f sq
  | .bishop => bishopGeom f sq && pathClear b rem f sq
  | .rook => rookGeom f sq && pathClear b rem f sq
  | .queen => queenGeom f sq && pathClear b rem f sq

/-- All 64 board coordinates. -/
def allPositions : List Position :=
  (List.range 8).flatMap fun r => (List.range 8).map fun c => (r, c)

/-- Modelled from the spec: whether any piece of `attacker` attacks `sq`
(the scan of section 4.5 over every enemy piece). -/
def isSquareAttacked (b : Board) (attacker : Player) (rem : List Position)
    (sq : Position) : Bool :=
  allPositions.any fun f =>
    match boardGet b f with
    | some pc => decide (pc.color = attacker) && attacksSquare b rem pc f sq
    | none => false

/-- Locates the king of the given colour. -/
def findKing (b : Board) (c : Player) : Option Position :=
  allPositions.find? fun p => decide (boardGet b p = some ⟨.king, c⟩)

/-- Modelled from the spec: `isInCheck(board, color, removedSquares)`
(sections 4.5 and 6) is not among the available sources.  Locate the king
of `color` and test whether any enemy piece attacks its square. -/
def isInCheck (b : Board) (c : Player) (rem : List Position) : Bool :=
  match findKing b c with
  | some kp => isSquareAttacked b c.opposite rem kp
  | none => false

/-- The squares between king and rook that must be empty and not removed
for the given castle (4.6). -/
def castleBetween (c : Player) (kingside : Bool) : List Position :=
  let r := homeRow c
  if kingside then [(r, 5), (r, 6)] else [(r, 1), (r, 2), (r, 3)]

/-- The king's path on the given castle: start, intermediate and
destination squares, none of which may be attacked (4.6). -/
def castlePath (c : Player) (kingside : Bool) : List Position :=
  let r := homeRow c
  if kingside then [(r, 4), (r, 5), (r, 6)] else [(r, 4), (r, 3), (r, 2)]

/-- The king's destination square on the given castle. -/
def castleDest (c : Player) (kingside : Bool) : Position :=
  (homeRow c, if kingside then 6 else 2)

def castlingRightOf (cs : CastlingRights) (c : Player) (kingside : Bool) :
    Bool :=
  match c, kingside with
  | .white, true => cs.whiteKingside
  | .white, false => cs.whiteQueenside
  | .black, true => cs.blackKingside
  | .black, false => cs.blackQueenside

/-- Modelled from the spec: the side conditions of a castle (4.6) - right
available, squares between king and rook empty and not removed, and the
king's path not attacked by the opponent (the start square covers "king
not currently in check"). -/
def castleSideOk (b : Board) (rem : List Position) (cs : CastlingRights)
    (c : Player) (kingside : Bool) : Bool :=
  castlingRightOf cs c kingside &&
  ((castleBetween c kingside).all fun p =>
    (boardGet b p).isNone && !(decide (p ∈ rem))) &&
  ((castlePath c kingside).all fun p =>
    !(isSquareAttacked b c.opposite rem p))

/-- Modelled from the spec: the two synthetic king destinations added by
castling (4.3, 4.6). -/
def castleMoveOk (b : Board) (rem : List Position) (cs : CastlingRights)
    (pc : Piece) (f t : Position) : Bool :=
  decide (pc.type = PieceType.king) &&
  decide (f = ((homeRow pc.color : Nat), (4 : Nat))) &&
  ((decide (t = ((homeRow pc.color : Nat), (6 : Nat))) &&
      castleSideOk b rem cs pc.color true) ||
   (decide (t = ((homeRow pc.color : Nat), (2 : Nat))) &&
      castleSideOk b rem cs pc.color false))

/-- Modelled from the spec: `isValidMove(board, from, to, removedSquares,
gameState) -> bool` (sections 4.3, 4.6 and 6) is not among the available
sources.  Pseudo-legal move test: bounds, a never-enterable destination
rule for removed squares, no same-colour capture, then per-piece geometry
or castling.  Of the game state passed by the caller only the castling
rights are consulted (4.6: legality checks "right is available"). -/
def isValidMove (b : Board) (f t : Position) (rem : List Position)
    (cs : CastlingRights) : Bool :=
  inBounds f && inBounds t && !(decide (t ∈ rem)) &&
  match boardGet b f with
  | none => false
  | some pc =>
      (match boardGet b t with
       | some q => decide (q.color ≠ pc.color)
       | none => true) &&
      (pieceGeomOk b rem pc f t || castleMoveOk b rem cs pc f t)

structure MoveResult where
  board : Board
  isCastling : Bool
deriving DecidableEq

/-- Modelled from the spec: `makeMove(board, from, to, gameState) ->
{ board, isCastling }` (sections 4.6 and 6) is not among the available
sources.  Moves the piece from `f` to `t`; a king moving two columns is a
castle and also relocates the matching rook in the same transition.  The
game-state argument of the source signature is not needed by the model. -/
def makeMove (b : Board) (f t : Position) : MoveResult :=
  let pc := boardGet b f
  let b1 := boardSet (boardSet b t pc) f none
  match pc with
  | some p =>
      if p.type = PieceType.king ∧ t.2 = f.2 + 2 then
        ⟨boardSet (boardSet b1 (f.1, 5) (boardGet b (f.1, 7))) (f.1, 7) none,
          true⟩
      else if p.type = PieceType.king ∧ f.2 = t.2 + 2 then
        ⟨boardSet (boardSet b1 (f.1, 3) (boardGet b (f.1, 0))) (f.1, 0) none,
          true⟩
      else ⟨b1, false⟩
  | none => ⟨b1, false⟩

/-- Whether `c` has any pseudo-legal move that does not leave its own king
in check (the escape scan of section 4.7). -/
def hasEscape (b : Board) (c : Player) (rem : List Position)
    (cs : CastlingRights) : Bool :=
  allPositions.any fun f =>
    allPositions.any fun t =>
      (match boardGet b f with
       | some pc => decide (pc.color = c)
       | none => false) &&
      isValidMove b f t rem cs &&
      !(isInCheck (makeMove b f t).board c rem)

/-- Modelled from the spec: `isCheckmate(board, color, removedSquares,
gameState) -> bool` (sections 4.7 and 6) is not among the available
sources.  True iff in check and no move of `color` escapes check. -/
def isCheckmate (b : Board) (c : Player) (rem : List Position)
    (cs : CastlingRights) : Bool :=
  isInCheck b c rem && !(hasEscape b c rem cs)

/-- The aggregate game state of the budgeted controller (the variant with a
removal quota and a turn clock).  The source keeps `removedSquares` as a
set of string keys `"row-col"`; it is modelled as the list of the
corresponding positions with set membership. -/
structure GameState where
  board : Board
  currentPlayer : Player
  selectedSquare : Option Position
  removedSquares : List Position
  gameOver : Bool
  winner : Option Player
  removalsUsed : PlayerNat
  timeLeft : PlayerNat
  castlingRights : CastlingRights
  kingMoved : KingMovedFlags
  rookMoved : RookMovedFlags
deriving DecidableEq

def revokeBoth (cr : CastlingRights) (c : Player) : CastlingRights :=
  match c with
  | .white => { cr with whiteKingside := false, whiteQueenside := false }
  | .black => { cr with blackKingside := false, blackQueenside := false }

def revokeSide (cr : CastlingRights) (c : Player) (kingside : Bool) :
    CastlingRights :=
  match c, kingside with
  | .white, true => { cr with whiteKingside := false }
  | .white, false => { cr with whiteQueenside := false }
  | .black, true => { cr with blackKingside := false }
  | .black, false => { cr with blackQueenside := false }

def kingMovedSet (km : KingMovedFlags) (c : Player) : KingMovedFlags :=
  match c with
  | .white => { km with white := true }
  | .black => { km with black := true }

def rookMovedSet (rm : RookMovedFlags) (c : Player) (kingside : Bool) :
    RookMovedFlags :=
  match c, kingside with
  | .white, true => { rm with whiteKingside := true }
  | .white, false => { rm with whiteQueenside := true }
  | .black, true => { rm with blackKingside := true }
  | .black, false => { rm with blackQueenside := true }

/-- Modelled from the spec: the castling-state recomputation behind
`updateCastlingRights(gameState, from, to) -> GameState` (sections 4.6 and
6), which is not among the available sources.  A king move revokes both of
its colour's rights and sets the king-moved flag; a rook moving off its
home corner revokes that side; a move onto any home corner revokes the
right of the rook captured there. -/
def updateCastlingCore (b : Board) (f t : Position) (cr : CastlingRights)
    (km : KingMovedFlags) (rm : RookMovedFlags) :
    CastlingRights × KingMovedFlags × RookMovedFlags :=
  let step1 :=
    match boardGet b f with
    | some pc =>
        if pc.type = PieceType.king then
          (revokeBoth cr pc.color, kingMovedSet km pc.color, rm)
        else if pc.type = PieceType.rook then
          if f = ((homeRow pc.color : Nat), (0 : Nat)) then
            (revokeSide cr pc.color false, km, rookMovedSet rm pc.color false)
          else if f = ((homeRow pc.color : Nat), (7 : Nat)) then
            (revokeSide cr pc.color true, km, rookMovedSet rm pc.color true)
          else (cr, km, rm)
        else (cr, km, rm)
    | none => (cr, km, rm)
  let cr1 := step1.1
  let cr2 :=
    if t = ((0 : Nat), (0 : Nat)) then revokeSide cr1 .black false
    else if t = ((0 : Nat), (7 : Nat)) then revokeSide cr1 .black true
    else if t = ((7 : Nat), (0 : Nat)) then revokeSide cr1 .white false
    else if t = ((7 : Nat), (7 : Nat)) then revokeSide cr1 .white true
    else cr1
  (cr2, step1.2.1, step1.2.2)

/-- Modelled from the spec: `updateCastlingRights` on the budgeted
controller's game state. -/
def updateCastlingRights (s : GameState) (f t : Position) : GameState :=
  let u := updateCastlingCore s.board f t s.castlingRights s.kingMoved
    s.rookMoved
  { s with castlingRights := u.1, kingMoved := u.2.1, rookMoved := u.2.2 }

/-- The state produced by the applied-move branch of `handleSquarePress`:
castling state updated, board replaced by the move result, player
switched, selection cleared, and game over with the mover as winner
exactly when the new current player is checkmated. -/
def applyMoveState (s : GameState) (sel pos : Position) : GameState :=
  let result := makeMove s.board sel pos
  let updated := updateCastlingRights s sel pos
  let mate := isCheckmate result.board s.currentPlayer.opposite
    s.removedSquares updated.castlingRights
  { updated with
      board := result.board
      currentPlayer := s.currentPlayer.opposite
      selectedSquare := none
      gameOver := mate
      winner := if mate then some s.currentPlayer else none }

inductive ActionMode where
  | move
  | remove
deriving DecidableEq

/-- The `actionMode === 'remove'` branch of the budgeted controller's
`handleSquarePress`: quota, already-removed and occupied checks, then the
removal is recorded, the quota incremented, the turn passed and the mode
reset to `move`. -/
def handleRemove (rpp : Nat) (s : GameState) (row col : Nat) :
    GameState × ActionMode :=
  let pos : Position := (row, col)
  if rpp ≤ s.removalsUsed.get s.currentPlayer then (s, .remove)
  else if pos ∈ s.removedSquares then (s, .remove)
  else
    match boardGet s.board pos with
    | some _ => (s, .remove)
    | none =>
        ({ s with
            removedSquares := pos :: s.removedSquares
            removalsUsed := s.removalsUsed.set s.currentPlayer
              (s.removalsUsed.get s.currentPlayer + 1)
            currentPlayer := s.currentPlayer.opposite }, .move)

/-- The move-mode branch of the budgeted controller's `handleSquarePress`:
pressing the selected square deselects; a valid move is simulated and
rejected if it leaves the mover's own king in check, otherwise applied via
`applyMoveState`; an invalid destination re-selects a pressed own piece or
clears the selection; with no selection, pressing an own piece selects
it. -/
def handleMovePress (s : GameState) (row col : Nat) : GameState :=
  let pos : Position := (row, col)
  match s.selectedSquare with
  | some sel =>
      if sel = pos then { s with selectedSquare := none }
      else if isValidMove s.board sel pos s.removedSquares s.castlingRights
        then
        if isInCheck (makeMove s.board sel pos).board s.currentPlayer
          s.removedSquares then s
        else applyMoveState s sel pos
      else
        match boardGet s.board pos with
        | some pc =>
            if pc.color = s.currentPlayer then
              { s with selectedSquare := some pos }
            else { s with selectedSquare := none }
        | none => { s with selectedSquare := none }
  | none =>
      match boardGet s.board pos with
      | some pc =>
          if pc.color = s.currentPlayer then
            { s with selectedSquare := some pos }
          else s
      | none => s

/-- `handleSquarePress` of the budgeted controller, parameterised by the
configured removals-per-player quota.  Returns the new game state together
with the action mode after the press (rejections keep the mode, applied
actions reset it to `move`). -/
def handleSquarePress (rpp : Nat) (s : GameState) (m : ActionMode)
    (row col : Nat) : GameState × ActionMode :=
  if s.gameOver then (s, m)
  else
    match m with
    | .remove => handleRemove rpp s row col
    | .move => (handleMovePress s row col, .move)

/-- `handleTimeUp` of the budgeted controller: the game ends and the
opponent of the player whose time expired wins. -/
def handleTimeUp (s : GameState) (player : Player) : GameState :=
  { s with gameOver := true, winner := some player.opposite }

/-- `handleTimeUpdate` of the budgeted controller: one player's clock is
replaced by a new value. -/
def handleTimeUpdate (s : GameState) (player : Player) (newTime : Nat) :
    GameState :=
  { s with timeLeft := s.timeLeft.set player newTime }

/-- The initial game state of the budgeted controller (the `useState`
initialiser). -/
def initialGameState : GameState where
  board := initializeBoard
  currentPlayer := .white
  selectedSquare := none
  removedSquares := []
  gameOver := false
  winner := none
  removalsUsed := ⟨0, 0⟩
  timeLeft := ⟨300, 300⟩
  castlingRights := ⟨true, true, true, true⟩
  kingMoved := ⟨false, false⟩
  rookMoved := ⟨false, false, false, false⟩

/-- One observable transition of the budgeted controller: a square press,
the timer's time-up callback, a clock update, or toggling the action mode
buttons. -/
inductive Step (rpp : Nat) :
    GameState × ActionMode → GameState × ActionMode → Prop where
  | press (s : GameState) (m : ActionMode) (row col : Nat) :
      Step rpp (s, m) (handleSquarePress rpp s m row col)
  | timeUp (s : GameState) (m : ActionMode) (p : Player) :
      Step rpp (s, m) (handleTimeUp s p, m)
  | timeUpdate (s : GameState) (m : ActionMode) (p : Player) (t : Nat) :
      Step rpp (s, m) (handleTimeUpdate s p t, m)
  | setMode (s : GameState) (m m2 : ActionMode) :
      Step rpp (s, m) (s, m2)

/-- States of the budgeted controller reachable from the initial state. -/
def Reachable (rpp : Nat) (x : GameState × ActionMode) : Prop :=
  Relation.ReflTransGen (Step rpp) (initialGameState, ActionMode.move) x

/-- The aggregate game state of the controller variant without a removal
budget (`src/app/index.tsx`), which has neither `removalsUsed` nor
`timeLeft`. -/
structure GameStateNB where
  board : Board
  currentPlayer : Player
  selectedSquare : Option Position
  removedSquares : List Position
  gameOver : Bool
  winner : Option Player
  castlingRights : CastlingRights
  kingMoved : KingMovedFlags
  rookMoved : RookMovedFlags
deriving DecidableEq

/-- Modelled from the spec: `updateCastlingRights` on the unbudgeted
controller's game state. -/
def updateCastlingRightsNB (s : GameStateNB) (f t : Position) :
    GameStateNB :=
  let u := updateCastlingCore s.board f t s.castlingRights s.kingMoved
    s.rookMoved
  { s with castlingRights := u.1, kingMoved := u.2.1, rookMoved := u.2.2 }

/-- The applied-move state of the unbudgeted controller. -/
def applyMoveStateNB (s : GameStateNB) (sel pos : Position) : GameStateNB :=
  let result := makeMove s.board sel pos
  let updated := updateCastlingRightsNB s sel pos
  let mate := isCheckmate result.board s.currentPlayer.opposite
    s.removedSquares updated.castlingRights
  { updated with
      board := result.board
      currentPlayer := s.currentPlayer.opposite
      selectedSquare := none
      gameOver := mate
      winner := if mate then some s.currentPlayer else none }

/-- The remove branch of the unbudgeted controller: no quota check at all -
only the already-removed and occupied checks. -/
def handleRemoveNB (s : GameStateNB) (row col : Nat) :
    GameStateNB × ActionMode :=
  let pos : Position := (row, col)
  if pos ∈ s.removedSquares then (s, .remove)
  else
    match boardGet s.board pos with
    | some _ => (s, .remove)
    | none =>
        ({ s with
            removedSquares := pos :: s.removedSquares
            currentPlayer := s.currentPlayer.opposite }, .move)

/-- The move-mode branch of the unbudgeted controller. -/
def handleMovePressNB (s : GameStateNB) (row col : Nat) : GameStateNB :=
  let pos : Position := (row, col)
  match s.selectedSquare with
  | some sel =>
      if sel = pos then { s with selectedSquare := none }
      else if isValidMove s.board sel pos s.removedSquares s.castlingRights
        then
        if isInCheck (makeMove s.board sel pos).board s.currentPlayer
          s.removedSquares then s
        else applyMoveStateNB s sel pos
      else
        match boardGet s.board pos with
        | some pc =>
            if pc.color = s.currentPlayer then
              { s with selectedSquare := some pos }
            else { s with selectedSquare := none }
        | none => { s with selectedSquare := none }
  | none =>
      match boardGet s.board pos with
      | some pc =>
          if pc.color = s.currentPlayer then
            { s with selectedSquare := some pos }
          else s
      | none => s

/-- `handleSquarePress` of the unbudgeted controller
(`src/app/index.tsx`). -/
def handleSquarePressNB (s : GameStateNB) (m : ActionMode) (row col : Nat) :
    GameStateNB × ActionMode :=
  if s.gameOver then (s, m)
  else
    match m with
    | .remove => handleRemoveNB s row col
    | .move => (handleMovePressNB s row col, .move)

/-- The initial game state of the unbudgeted controller. -/
def initialGameStateNB : GameStateNB where
  board := initializeBoard
  currentPlayer := .white
  selectedSquare := none
  removedSquares := []
  gameOver := false
  winner := none
  castlingRights := ⟨true, true, true, true⟩
  kingMoved := ⟨false, false⟩
  rookMoved := ⟨false, false, false, false⟩

/-! ### Basic board lemmas -/

theorem boardGet_set_ne (b : Board) (p q : Position) (v : Option Piece)
    (h : q ≠ p) : boardGet (boardSet b p v) q = boardGet b q := by
  obtain ⟨p1, p2⟩ := p
  obtain ⟨q1, q2⟩ := q
  unfold boardGet boardSet
  cases hb : b[p1]? with
  | none => rfl
  | some row =>
      by_cases h1 : q1 = p1
      · subst h1
        have h2 : p2 ≠ q2 := by
          intro h2
          exact h (by rw [h2])
        have hl : q1 < b.length := (List.getElem?_eq_some_iff.mp hb).1
        simp [List.getElem?_set_self hl, hb, List.getElem?_set_ne h2]
      · simp only [List.getElem?_set_ne fun hh => h1 hh.symm]

theorem boardGet_set_none_self (b : Board) (p : Position) :
    boardGet (boardSet b p none) p = none := by
  obtain ⟨p1, p2⟩ := p
  unfold boardGet boardSet
  cases hb : b[p1]? with
  | none => simp [hb]
  | some row =>
      have hl : p1 < b.length := (List.getElem?_eq_some_iff.mp hb).1
      simp only [List.getElem?_set_self hl, Option.bind_some]
      by_cases h2 : p2 < row.length
      · simp [List.getElem?_set_self h2]
      · have hnone : (row.set p2 (none : Option Piece))[p2]? = none := by
          rw [List.getElem?_eq_none]
          simpa using Nat.le_of_not_lt h2
        simp [hnone]

/-! ### Decomposing a successful pseudo-legality test -/

theorem isValidMove_true_parts {b : Board} {f t : Position}
    {rem : List Position} {cs : CastlingRights}
    (h : isValidMove b f t rem cs = true) :
    t ∉ rem ∧ ∃ pc, boardGet b f = some pc ∧
      (pieceGeomOk b rem pc f t = true ∨ castleMoveOk b rem cs pc f t = true)
    := by
  unfold isValidMove at h
  cases hb : boardGet b f with
  | none => rw [hb] at h; simp at h
  | some pc =>
      rw [hb] at h
      simp only [Bool.and_eq_true, Bool.not_eq_true',
        decide_eq_false_iff_not, Bool.or_eq_true] at h
      exact ⟨h.1.2, pc, rfl, h.2.2⟩

theorem castleMoveOk_true_parts {b : Board} {rem : List Position}
    {cs : CastlingRights} {pc : Piece} {f t : Position}
    (h : castleMoveOk b rem cs pc f t = true) :
    pc.type = PieceType.king ∧ f = ((homeRow pc.color : Nat), (4 : Nat)) ∧
      ((t = ((homeRow pc.color : Nat), (6 : Nat)) ∧
          castleSideOk b rem cs pc.color true = true) ∨
       (t = ((homeRow pc.color : Nat), (2 : Nat)) ∧
          castleSideOk b rem cs pc.color false = true)) := by
  unfold castleMoveOk at h
  simp only [Bool.and_eq_true, decide_eq_true_eq, Bool.or_eq_true] at h
  tauto

theorem castleSideOk_between {b : Board} {rem : List Position}
    {cs : CastlingRights} {c : Player} {ks : Bool}
    (h : castleSideOk b rem cs c ks = true) :
    ∀ p ∈ castleBetween c ks, boardGet b p = none ∧ p ∉ rem := by
  unfold castleSideOk at h
  simp only [Bool.and_eq_true, List.all_eq_true, Bool.not_eq_true',
    decide_eq_false_iff_not, Option.isNone_iff_eq_none] at h
  intro p hp
  exact h.1.2 p hp

theorem pieceGeomOk_king_two_cols {b : Board} {rem : List Position}
    {pc : Piece} {f t : Position} (hk : pc.type = PieceType.king)
    (h2 : Nat.dist f.2 t.2 = 2) : pieceGeomOk b rem pc f t = false := by
  unfold pieceGeomOk
  rw [hk]
  unfold kingGeom
  simp only [decide_eq_false_iff_not]
  rintro ⟨-, hc, -⟩
  omega

/-! ### What a valid two-column king move implies -/

theorem valid_castle_kingside {b : Board} {f t : Position}
    {rem : List Position} {cs : CastlingRights} {pc : Piece}
    (hv : isValidMove b f t rem cs = true) (hpc : boardGet b f = some pc)
    (hk : pc.type = PieceType.king) (h2 : t.2 = f.2 + 2) :
    f = ((homeRow pc.color : Nat), (4 : Nat)) ∧
      t = ((homeRow pc.color : Nat), (6 : Nat)) ∧
      castleSideOk b rem cs pc.color true = true := by
  obtain ⟨-, pc2, hpc2, hgc⟩ := isValidMove_true_parts hv
  rw [hpc] at hpc2
  injection hpc2 with he
  subst he
  rcases hgc with hg | hc
  · have hdist : Nat.dist f.2 t.2 = 2 := by simp [Nat.dist, h2]
    rw [pieceGeomOk_king_two_cols hk hdist] at hg
    cases hg
  · obtain ⟨-, hf, hcase⟩ := castleMoveOk_true_parts hc
    rcases hcase with ⟨ht, hok⟩ | ⟨ht, hok⟩
    · exact ⟨hf, ht, hok⟩
    · exfalso
      rw [hf] at h2
      rw [ht] at h2
      simp at h2

theorem valid_castle_queenside {b : Board} {f t : Position}
    {rem : List Position} {cs : CastlingRights} {pc : Piece}
    (hv : isValidMove b f t rem cs = true) (hpc : boardGet b f = some pc)
    (hk : pc.type = PieceType.king) (h2 : f.2 = t.2 + 2) :
    f = ((homeRow pc.color : Nat), (4 : Nat)) ∧
      t = ((homeRow pc.color : Nat), (2 : Nat)) ∧
      castleSideOk b rem cs pc.color false = true := by
  obtain ⟨-, pc2, hpc2, hgc⟩ := isValidMove_true_parts hv
  rw [hpc] at hpc2
  injection hpc2 with he
  subst he
  rcases hgc with hg | hc
  · have hdist : Nat.dist f.2 t.2 = 2 := by simp [Nat.dist, h2]
    rw [pieceGeomOk_king_two_cols hk hdist] at hg
    cases hg
  · obtain ⟨-, hf, hcase⟩ := castleMoveOk_true_parts hc
    rcases hcase with ⟨ht, hok⟩ | ⟨ht, hok⟩
    · exfalso
      rw [hf] at h2
      rw [ht] at h2
      simp at h2
    · exact ⟨hf, ht, hok⟩

/-! ### Effect of `makeMove` on squares away from the action -/

theorem boardGet_double_set_none {b : Board} {f t q : Position}
    {v : Option Piece} (hqt : q ≠ t) (hq0 : boardGet b q = none) :
    boardGet (boardSet (boardSet b t v) f none) q = none := by
  by_cases hqf : q = f
  · subst hqf
    exact boardGet_set_none_self _ _
  · rw [boardGet_set_ne _ _ _ _ hqf, boardGet_set_ne _ _ _ _ hqt]
    exact hq0

theorem makeMove_preserves_empty {b : Board} {f t : Position}
    {rem : List Position} {cs : CastlingRights} {q : Position}
    (hv : isValidMove b f t rem cs = true) (hq : q ∈ rem)
    (h0 : boardGet b q = none) :
    boardGet (makeMove b f t).board q = none := by
  obtain ⟨htr, pc, hpc, -⟩ := isValidMove_true_parts hv
  have hqt : q ≠ t := fun h => htr (h ▸ hq)
  have hb1 : boardGet
      (boardSet (boardSet b t (boardGet b f)) f none) q = none :=
    boardGet_double_set_none hqt h0
  rw [hpc] at hb1
  unfold makeMove
  rw [hpc]
  dsimp only
  split
  · rename_i hcond
    obtain ⟨hf, ht, hok⟩ := valid_castle_kingside hv hpc hcond.1 hcond.2
    have h5 : ((f.1 : Nat), (5 : Nat)) ∉ rem := by
      have hmem : ((f.1 : Nat), (5 : Nat)) ∈ castleBetween pc.color true := by
        rw [hf]
        simp [castleBetween]
      exact (castleSideOk_between hok _ hmem).2
    have hq5 : q ≠ ((f.1 : Nat), (5 : Nat)) := fun h => h5 (h ▸ hq)
    by_cases hq7 : q = ((f.1 : Nat), (7 : Nat))
    · subst hq7
      exact boardGet_set_none_self _ _
    · rw [boardGet_set_ne _ _ _ _ hq7, boardGet_set_ne _ _ _ _ hq5]
      exact hb1
  · split
    · rename_i hcond
      obtain ⟨hf, ht, hok⟩ := valid_castle_queenside hv hpc hcond.1 hcond.2
      have h3 : ((f.1 : Nat), (3 : Nat)) ∉ rem := by
        have hmem : ((f.1 : Nat), (3 : Nat)) ∈ castleBetween pc.color false := by
          rw [hf]
          simp [castleBetween]
        exact (castleSideOk_between hok _ hmem).2
      have hq3 : q ≠ ((f.1 : Nat), (3 : Nat)) := fun h => h3 (h ▸ hq)
      by_cases hc0 : q = ((f.1 : Nat), (0 : Nat))
      · subst hc0
        exact boardGet_set_none_self _ _
      · rw [boardGet_set_ne _ _ _ _ hc0, boardGet_set_ne _ _ _ _ hq3]
        exact hb1
    · exact hb1

theorem makeMove_from_none {b : Board} {f t : Position}
    {rem : List Position} {cs : CastlingRights}
    (hv : isValidMove b f t rem cs = true) :
    boardGet (makeMove b f t).board f = none := by
  obtain ⟨-, pc, hpc, -⟩ := isValidMove_true_parts hv
  have hb1 : boardGet
      (boardSet (boardSet b t (boardGet b f)) f none) f = none :=
    boardGet_set_none_self _ _
  rw [hpc] at hb1
  unfold makeMove
  rw [hpc]
  dsimp only
  split
  · rename_i hcond
    obtain ⟨hf, -, -⟩ := valid_castle_kingside hv hpc hcond.1 hcond.2
    have hf7 : f ≠ ((f.1 : Nat), (7 : Nat)) := by
      rw [hf]
      simp
    have hf5 : f ≠ ((f.1 : Nat), (5 : Nat)) := by
      rw [hf]
      simp
    rw [boardGet_set_ne _ _ _ _ hf7, boardGet_set_ne _ _ _ _ hf5]
    exact hb1
  · split
    · rename_i hcond
      obtain ⟨hf, -, -⟩ := valid_castle_queenside hv hpc hcond.1 hcond.2
      have hf0 : f ≠ ((f.1 : Nat), (0 : Nat)) := by
        rw [hf]
        simp
      have hf3 : f ≠ ((f.1 : Nat), (3 : Nat)) := by
        rw [hf]
        simp
      rw [boardGet_set_ne _ _ _ _ hf0, boardGet_set_ne _ _ _ _ hf3]
      exact hb1
    · exact hb1

theorem makeMove_board_ne {b : Board} {f t : Position}
    {rem : List Position} {cs : CastlingRights}
    (hv : isValidMove b f t rem cs = true) :
    (makeMove b f t).board ≠ b := by
  obtain ⟨-, pc, hpc, -⟩ := isValidMove_true_parts hv
  intro he
  have h1 := makeMove_from_none hv
  rw [he, hpc] at h1
  cases h1

/-! ### Case analysis of a square press -/

theorem press_board_cases (rpp : Nat) (s : GameState) (m : ActionMode)
    (row col : Nat) :
    (handleSquarePress rpp s m row col).1.board = s.board ∨
    ∃ sel, s.selectedSquare = some sel ∧ s.gameOver = false ∧
      isValidMove s.board sel (row, col) s.removedSquares
        s.castlingRights = true ∧
      isInCheck (makeMove s.board sel (row, col)).board s.currentPlayer
        s.removedSquares = false ∧
      handleSquarePress rpp s m row col =
        (applyMoveState s sel (row, col), ActionMode.move) := by
  unfold handleSquarePress
  split
  · exact Or.inl rfl
  · rename_i hgo
    cases m with
    | remove =>
        left
        unfold handleRemove
        dsimp only
        split
        · rfl
        · split
          · rfl
          · split
            · rfl
            · rfl
    | move =>
        unfold handleMovePress
        dsimp only
        split
        · rename_i sel hsel
          split
          · exact Or.inl rfl
          · split
            · rename_i hvalid
              split
              · exact Or.inl rfl
              · rename_i hcheck
                right
                exact ⟨sel, hsel, Bool.eq_false_iff.mpr hgo, hvalid,
                  Bool.eq_false_iff.mpr hcheck, rfl⟩
            · split
              · split
                · exact Or.inl rfl
                · exact Or.inl rfl
              · exact Or.inl rfl
        · split
          · split
            · exact Or.inl rfl
            · exact Or.inl rfl
          · exact Or.inl rfl

/-! ### Reachability invariants of the budgeted controller -/

theorem press_removed_empty (rpp : Nat) (s : GameState) (m : ActionMode)
    (row col : Nat)
    (ih : ∀ r ∈ s.removedSquares, boardGet s.board r = none) :
    ∀ r ∈ (handleSquarePress rpp s m row col).1.removedSquares,
      boardGet (handleSquarePress rpp s m row col).1.board r = none := by
  unfold handleSquarePress
  split
  · exact ih
  · cases m with
    | remove =>
        unfold handleRemove
        dsimp only
        split
        · exact ih
        · split
          · exact ih
          · split
            · exact ih
            · rename_i hempty
              intro r hr
              rcases List.mem_cons.mp hr with h | h
              · subst h
                exact hempty
              · exact ih r h
    | move =>
        unfold handleMovePress
        dsimp only
        split
        · rename_i sel hsel
          split
          · exact ih
          · split
            · rename_i hvalid
              split
              · exact ih
              · intro r hr
                exact makeMove_preserves_empty hvalid hr (ih r hr)
            · split
              · split
                · exact ih
                · exact ih
              · exact ih
        · split
          · split
            · exact ih
            · exact ih
          · exact ih

theorem reachable_removed_empty {rpp : Nat} {x : GameState × ActionMode}
    (h : Reachable rpp x) :
    ∀ r ∈ x.1.removedSquares, boardGet x.1.board r = none := by
  induction h with
  | refl =>
      intro r hr
      simp [initialGameState] at hr
  | tail hsteps hstep ih =>
      cases hstep with
      | press s m row col => exact press_removed_empty _ s m row col ih
      | timeUp s m p => exact ih
      | timeUpdate s m p t => exact ih
      | setMode s m m2 => exact ih

theorem press_winner_none (rpp : Nat) (s : GameState) (m : ActionMode)
    (row col : Nat) (ih : s.gameOver = false → s.winner = none) :
    (handleSquarePress rpp s m row col).1.gameOver = false →
    (handleSquarePress rpp s m row col).1.winner = none := by
  unfold handleSquarePress
  split
  · exact ih
  · cases m with
    | remove =>
        unfold handleRemove
        dsimp only
        split
        · exact ih
        · split
          · exact ih
          · split
            · exact ih
            · exact ih
    | move =>
        unfold handleMovePress
        dsimp only
        split
        · rename_i sel hsel
          split
          · exact ih
          · split
            · split
              · exact ih
              · intro hmate
                dsimp only [applyMoveState, updateCastlingRights] at hmate ⊢
                simp [hmate]
            · split
              · split
                · exact ih
                · exact ih
              · exact ih
        · split
          · split
            · exact ih
            · exact ih
          · exact ih

theorem reachable_winner_none {rpp : Nat} {x : GameState × ActionMode}
    (h : Reachable rpp x) : x.1.gameOver = false → x.1.winner = none := by
  induction h with
  | refl =>
      intro hgo
      rfl
  | tail hsteps hstep ih =>
      cases hstep with
      | press s m row col => exact press_winner_none _ s m row col ih
      | timeUp s m p =>
          intro hgo
          cases hgo
      | timeUpdate s m p t => exact ih
      | setMode s m m2 => exact ih

/-! ### Claim theorems -/

/-- C1: every move the Game Controller applies passed the
simulate-then-check filter.  Whenever a press changes the board, the
pressed move was validated, its simulation via `makeMove` leaves the
mover's own king out of check (`isInCheck` of the mover's colour is
`false` on the simulated board), and the live board becomes exactly that
simulated board; consequently an attempted move whose simulation leaves
the mover's king in check is never applied to the live state. -/
theorem applied_move_passes_self_check_filter (rpp : Nat) (s : GameState)
    (m : ActionMode) (row col : Nat) :
    (handleSquarePress rpp s m row col).1.board = s.board ∨
    ∃ sel, s.selectedSquare = some sel ∧
      isValidMove s.board sel (row, col) s.removedSquares
        s.castlingRights = true ∧
      isInCheck (makeMove s.board sel (row, col)).board s.currentPlayer
        s.removedSquares = false ∧
      (handleSquarePress rpp s m row col).1.board =
        (makeMove s.board sel (row, col)).board := by
  rcases press_board_cases rpp s m row col with h | ⟨sel, h1, h2, h3, h4, h5⟩
  · exact Or.inl h
  · right
    refine ⟨sel, h1, h3, h4, ?_⟩
    rw [h5]
    rfl

/-- C4: turn alternation is strict.  A press switches the current player
to the opposite colour exactly when it applies an action (i.e. changes the
board by a move or the Removal Ledger by a removal); every rejected or
selection-only press leaves the current player unchanged. -/
theorem turn_alternation (rpp : Nat) (s : GameState) (m : ActionMode)
    (row col : Nat) :
    (handleSquarePress rpp s m row col).1.currentPlayer =
      if (handleSquarePress rpp s m row col).1.board = s.board ∧
          (handleSquarePress rpp s m row col).1.removedSquares
            = s.removedSquares
      then s.currentPlayer else s.currentPlayer.opposite := by
  unfold handleSquarePress
  split
  · simp
  · cases m with
    | remove =>
        unfold handleRemove
        dsimp only
        split
        · simp
        · split
          · simp
          · split
            · simp
            · rw [if_neg (fun hc => List.cons_ne_self _ _ hc.2)]
    | move =>
        unfold handleMovePress
        dsimp only
        split
        · rename_i sel hsel
          split
          · simp
          · split
            · rename_i hvalid
              split
              · simp
              · rw [if_neg (fun hc => makeMove_board_ne hvalid hc.1)]
                rfl
            · split
              · split
                · simp
                · simp
              · simp
        · split
          · split
            · simp
            · simp
          · simp

/-- C6: once `gameOver` is set (by checkmate or by the time-out signal),
every square press in either mode leaves the game state and the action
mode entirely unchanged. -/
theorem game_over_press_inert (rpp : Nat) (s : GameState) (m : ActionMode)
    (row col : Nat) (h : s.gameOver = true) :
    handleSquarePress rpp s m row col = (s, m) := by
  unfold handleSquarePress
  rw [if_pos h]

theorem game_over_press_inert_witness :
    handleSquarePress 3 (handleTimeUp initialGameState .white) .move 4 4
      = (handleTimeUp initialGameState .white, .move) :=
  game_over_press_inert 3 (handleTimeUp initialGameState .white) .move 4 4
    rfl

/-- C7: the external time-up signal terminates the game: `gameOver`
becomes true and the winner is the opponent of the player whose time
expired, whatever the position on the board. -/
theorem time_up_forfeit (s : GameState) (p : Player) :
    (handleTimeUp s p).gameOver = true ∧
    (handleTimeUp s p).winner = some p.opposite ∧
    (handleTimeUp s p).board = s.board ∧
    (handleTimeUp s p).currentPlayer = s.currentPlayer ∧
    (handleTimeUp s p).removedSquares = s.removedSquares :=
  ⟨rfl, rfl, rfl, rfl, rfl⟩


/-! ### Removed squares are inert for movement -/

theorem homeRow_inj {c d : Player} (h : homeRow c = homeRow d) : c = d := by
  cases c <;> cases d <;> simp [homeRow] at h ⊢

theorem isValidMove_removed_target {b : Board} {f : Position}
    {rem : List Position} {cs : CastlingRights} {r : Position}
    (hr : r ∈ rem) : isValidMove b f r rem cs = false := by
  cases hv : isValidMove b f r rem cs with
  | false => rfl
  | true => exact absurd hr (isValidMove_true_parts hv).1

theorem isValidMove_slider_blocked {b : Board} {f t r : Position}
    {rem : List Position} {cs : CastlingRights} {pc : Piece}
    (hpc : boardGet b f = some pc)
    (hty : pc.type = PieceType.bishop ∨ pc.type = PieceType.rook ∨
      pc.type = PieceType.queen)
    (hbt : r ∈ betweenSquares f t) (hr : r ∈ rem) :
    isValidMove b f t rem cs = false := by
  cases hv : isValidMove b f t rem cs with
  | false => rfl
  | true =>
      exfalso
      obtain ⟨-, pc2, hpc2, hgc⟩ := isValidMove_true_parts hv
      rw [hpc] at hpc2
      injection hpc2 with he
      subst he
      have hclear : pathClear b rem f t = false := by
        apply Bool.eq_false_iff.mpr
        intro hall
        unfold pathClear at hall
        rw [List.all_eq_true] at hall
        have hthis := hall r hbt
        simp only [Bool.and_eq_true, Bool.not_eq_true',
          decide_eq_false_iff_not] at hthis
        exact hthis.2 hr
      rcases hgc with hg | hc
      · unfold pieceGeomOk at hg
        rcases hty with h | h | h <;> rw [h] at hg <;>
          simp [hclear] at hg
      · obtain ⟨hk, -, -⟩ := castleMoveOk_true_parts hc
        rcases hty with h | h | h <;> rw [hk] at h <;> cases h

theorem isValidMove_castle_blocked {b : Board} {rem : List Position}
    {cs : CastlingRights} {pc : Piece} {r : Position} {c : Player}
    {ks : Bool} (hpc : boardGet b ((homeRow c : Nat), (4 : Nat)) = some pc)
    (hk : pc.type = PieceType.king) (hbt : r ∈ castleBetween c ks)
    (hr : r ∈ rem) :
    isValidMove b ((homeRow c : Nat), (4 : Nat)) (castleDest c ks) rem cs
      = false := by
  cases hv : isValidMove b ((homeRow c : Nat), (4 : Nat)) (castleDest c ks)
      rem cs with
  | false => rfl
  | true =>
      exfalso
      obtain ⟨htr, pc2, hpc2, hgc⟩ := isValidMove_true_parts hv
      rw [hpc] at hpc2
      injection hpc2 with he
      subst he
      by_cases hrd : r = castleDest c ks
      · exact htr (hrd ▸ hr)
      · rcases hgc with hg | hc
        · have hdist : Nat.dist ((homeRow c : Nat), (4 : Nat)).2
              (castleDest c ks).2 = 2 := by
            cases ks <;> simp [castleDest, Nat.dist]
          rw [pieceGeomOk_king_two_cols hk hdist] at hg
          cases hg
        · obtain ⟨-, hf, hcase⟩ := castleMoveOk_true_parts hc
          have hcc : c = pc.color := homeRow_inj (congrArg Prod.fst hf)
          rw [← hcc] at hcase
          cases ks with
          | true =>
              rcases hcase with ⟨-, hok⟩ | ⟨ht2, -⟩
              · exact (castleSideOk_between hok r hbt).2 hr
              · simp [castleDest] at ht2
          | false =>
              rcases hcase with ⟨ht2, -⟩ | ⟨-, hok⟩
              · simp [castleDest] at ht2
              · exact (castleSideOk_between hok r hbt).2 hr

/-- C2: a square in the Removal Ledger of any reachable state is inert: it
is unoccupied, it is never a pseudo-legal destination for any piece, no
sliding piece's move may pass through it to a square beyond, and it blocks
the king's castling path. -/
theorem removed_square_inert (rpp : Nat) (s : GameState) (m : ActionMode)
    (hreach : Reachable rpp (s, m)) (r : Position)
    (hr : r ∈ s.removedSquares) :
    boardGet s.board r = none ∧
    (∀ f cs, isValidMove s.board f r s.removedSquares cs = false) ∧
    (∀ f t cs pc, boardGet s.board f = some pc →
      (pc.type = PieceType.bishop ∨ pc.type = PieceType.rook ∨
        pc.type = PieceType.queen) →
      r ∈ betweenSquares f t →
      isValidMove s.board f t s.removedSquares cs = false) ∧
    (∀ c ks cs pc,
      boardGet s.board ((homeRow c : Nat), (4 : Nat)) = some pc →
      pc.type = PieceType.king → r ∈ castleBetween c ks →
      isValidMove s.board ((homeRow c : Nat), (4 : Nat)) (castleDest c ks)
        s.removedSquares cs = false) := by
  refine ⟨reachable_removed_empty hreach r hr, ?_, ?_, ?_⟩
  · intro f cs
    exact isValidMove_removed_target hr
  · intro f t cs pc hpc hty hbt
    exact isValidMove_slider_blocked hpc hty hbt hr
  · intro c ks cs pc hpc hk hbt
    exact isValidMove_castle_blocked hpc hk hbt hr

/-- The budgeted controller state after one removal at (3,3). -/
def removedOnce : GameState × ActionMode :=
  handleSquarePress 3 initialGameState .remove 3 3

theorem removedOnce_reachable : Reachable 3 removedOnce :=
  Relation.ReflTransGen.tail
    (Relation.ReflTransGen.single
      (Step.setMode initialGameState .move .remove))
    (Step.press initialGameState .remove 3 3)

theorem removed_square_inert_witness :
    boardGet removedOnce.1.board (3, 3) = none ∧
    isValidMove removedOnce.1.board (7, 3) (3, 3)
      removedOnce.1.removedSquares removedOnce.1.castlingRights = false := by
  have h := removed_square_inert 3 removedOnce.1 removedOnce.2
    removedOnce_reachable (3, 3) (by decide)
  exact ⟨h.1, h.2.1 (7, 3) removedOnce.1.castlingRights⟩

/-- C3: whenever a press applies a move (the board changes), the game ends
with the mover recorded as winner exactly when the resulting position is
checkmate for the new current player; otherwise the game-over flag and the
winner are exactly as before the move. -/
theorem checkmate_sets_winner (rpp : Nat) (s : GameState) (m : ActionMode)
    (row col : Nat) (hreach : Reachable rpp (s, m))
    (hb : (handleSquarePress rpp s m row col).1.board ≠ s.board) :
    (isCheckmate (handleSquarePress rpp s m row col).1.board
        (handleSquarePress rpp s m row col).1.currentPlayer
        (handleSquarePress rpp s m row col).1.removedSquares
        (handleSquarePress rpp s m row col).1.castlingRights = true →
      (handleSquarePress rpp s m row col).1.gameOver = true ∧
      (handleSquarePress rpp s m row col).1.winner = some s.currentPlayer) ∧
    (isCheckmate (handleSquarePress rpp s m row col).1.board
        (handleSquarePress rpp s m row col).1.currentPlayer
        (handleSquarePress rpp s m row col).1.removedSquares
        (handleSquarePress rpp s m row col).1.castlingRights = false →
      (handleSquarePress rpp s m row col).1.gameOver = s.gameOver ∧
      (handleSquarePress rpp s m row col).1.winner = s.winner) := by
  rcases press_board_cases rpp s m row col with h | ⟨sel, h1, hgo, h3, h4, h5⟩
  · exact absurd h hb
  · have hwin : s.winner = none := reachable_winner_none hreach hgo
    rw [h5]
    dsimp only [applyMoveState, updateCastlingRights]
    constructor
    · intro hmate
      simp [hmate]
    · intro hmate
      simp [hmate, hgo, hwin]

/-- First press of the fixed scenario: selecting the white pawn on e2. -/
def witState1 : GameState × ActionMode :=
  handleSquarePress 3 initialGameState .move 6 4

theorem witState1_reachable : Reachable 3 witState1 :=
  Relation.ReflTransGen.single (Step.press initialGameState .move 6 4)

theorem checkmate_sets_winner_witness :
    (handleSquarePress 3 witState1.1 witState1.2 4 4).1.gameOver
        = witState1.1.gameOver ∧
    (handleSquarePress 3 witState1.1 witState1.2 4 4).1.winner
        = witState1.1.winner :=
  (checkmate_sets_winner 3 witState1.1 witState1.2 4 4 witState1_reachable
    (by decide)).2 (by decide)

/-- C5 counterexample: in the reachable game-over state produced by the
time-out signal, a remove press on the empty, never-removed square (3,3)
with the quota untouched is still rejected, so "occupied or already
removed or quota exhausted" is not the only rejection cause. -/
theorem remove_reject_iff_cex :
    Reachable 3 (handleTimeUp initialGameState .white, ActionMode.remove) ∧
    boardGet (handleTimeUp initialGameState .white).board (3, 3) = none ∧
    (3, 3) ∉ (handleTimeUp initialGameState .white).removedSquares ∧
    (handleTimeUp initialGameState .white).removalsUsed.get
      (handleTimeUp initialGameState .white).currentPlayer < 3 ∧
    (handleSquarePress 3 (handleTimeUp initialGameState .white) .remove 3 3)
      = (handleTimeUp initialGameState .white, ActionMode.remove) := by
  refine ⟨?_, by decide, by decide, by decide, rfl⟩
  exact Relation.ReflTransGen.tail
    (Relation.ReflTransGen.single
      (Step.timeUp initialGameState .move .white))
    (Step.setMode (handleTimeUp initialGameState .white) .move .remove)

/-- C5 (amended): while the game is not over, a remove press mutates the
Removal Ledger iff the acting player still has removal budget and the
target square is neither already removed nor occupied; when accepted the
square is added to the ledger, the turn passes to the opponent and no
piece moves. -/
theorem remove_action_characterisation (rpp : Nat) (s : GameState)
    (row col : Nat) :
    ((handleSquarePress rpp s .remove row col).1.removedSquares
        ≠ s.removedSquares ↔
      s.gameOver = false ∧ s.removalsUsed.get s.currentPlayer < rpp ∧
        (row, col) ∉ s.removedSquares ∧
        boardGet s.board (row, col) = none) ∧
    ((handleSquarePress rpp s .remove row col).1.removedSquares
        ≠ s.removedSquares →
      (handleSquarePress rpp s .remove row col).1.removedSquares
          = (row, col) :: s.removedSquares ∧
      (handleSquarePress rpp s .remove row col).1.currentPlayer
          = s.currentPlayer.opposite ∧
      (handleSquarePress rpp s .remove row col).1.board = s.board ∧
      (handleSquarePress rpp s .remove row col).1.removalsUsed.get
          s.currentPlayer
        = s.removalsUsed.get s.currentPlayer + 1) := by
  unfold handleSquarePress handleRemove
  dsimp only
  split
  · rename_i hgo
    constructor
    · constructor
      · intro hne
        exact absurd rfl hne
      · rintro ⟨hf, -⟩
        rw [hgo] at hf
        cases hf
    · intro hne
      exact absurd rfl hne
  · rename_i hgo
    split
    · rename_i hq
      constructor
      · constructor
        · intro hne
          exact absurd rfl hne
        · rintro ⟨-, hlt, -, -⟩
          omega
      · intro hne
        exact absurd rfl hne
    · rename_i hq
      split
      · rename_i hmem
        constructor
        · constructor
          · intro hne
            exact absurd rfl hne
          · rintro ⟨-, -, hnm, -⟩
            exact absurd hmem hnm
        · intro hne
          exact absurd rfl hne
      · rename_i hmem
        split
        · rename_i x hx
          constructor
          · constructor
            · intro hne
              exact absurd rfl hne
            · rintro ⟨-, -, -, hnone⟩
              rw [hx] at hnone
              cases hnone
          · intro hne
            exact absurd rfl hne
        · rename_i hx
          constructor
          · constructor
            · intro hne
              exact ⟨Bool.eq_false_iff.mpr hgo, by omega, hmem, hx⟩
            · intro hc
              exact List.cons_ne_self _ _
          · intro hne
            refine ⟨rfl, rfl, rfl, ?_⟩
            cases hcp : s.currentPlayer <;>
              simp [PlayerNat.set, PlayerNat.get, hcp]

theorem remove_action_characterisation_witness :
    (handleSquarePress 3 initialGameState .remove 3 3).1.removedSquares
        = [((3 : Nat), (3 : Nat))] ∧
    (handleSquarePress 3 initialGameState .remove 3 3).1.currentPlayer
        = Player.black := by
  have h := (remove_action_characterisation 3 initialGameState 3 3).2
    (by decide)
  exact ⟨h.1, h.2.1⟩

/-- C8 counterexample: from the initial position, select the white pawn on
e2 = (6,4), then press the black pawn square e7 = (1,4).  The move is
invalid and rejected, yet the stored selection changes (it is cleared), so
a rejected action does not leave the whole game state unchanged. -/
theorem rejection_unchanged_cex :
    witState1.1.selectedSquare = some (6, 4) ∧
    isValidMove witState1.1.board (6, 4) (1, 4) witState1.1.removedSquares
      witState1.1.castlingRights = false ∧
    (handleSquarePress 3 witState1.1 .move 1 4).1.board
      = witState1.1.board ∧
    (handleSquarePress 3 witState1.1 .move 1 4).1.removedSquares
      = witState1.1.removedSquares ∧
    (handleSquarePress 3 witState1.1 .move 1 4).1.selectedSquare = none ∧
    (handleSquarePress 3 witState1.1 .move 1 4).1 ≠ witState1.1 := by
  decide

/-- C8 (amended): a press that applies no action (board and Removal Ledger
both unchanged) preserves the current player, the castling state, the
king- and rook-moved flags, the game-over flag, the winner, the removal
quotas and the clocks; only `selectedSquare` may change (re-selection or
clearing on a rejected move attempt). -/
theorem rejection_preserves_core_state (rpp : Nat) (s : GameState)
    (m : ActionMode) (row col : Nat)
    (hb : (handleSquarePress rpp s m row col).1.board = s.board)
    (hr : (handleSquarePress rpp s m row col).1.removedSquares
      = s.removedSquares) :
    (handleSquarePress rpp s m row col).1.currentPlayer = s.currentPlayer ∧
    (handleSquarePress rpp s m row col).1.castlingRights
      = s.castlingRights ∧
    (handleSquarePress rpp s m row col).1.kingMoved = s.kingMoved ∧
    (handleSquarePress rpp s m row col).1.rookMoved = s.rookMoved ∧
    (handleSquarePress rpp s m row col).1.gameOver = s.gameOver ∧
    (handleSquarePress rpp s m row col).1.winner = s.winner ∧
    (handleSquarePress rpp s m row col).1.removalsUsed = s.removalsUsed ∧
    (handleSquarePress rpp s m row col).1.timeLeft = s.timeLeft := by
  revert hb hr
  unfold handleSquarePress
  split
  · intro hb hr
    exact ⟨rfl, rfl, rfl, rfl, rfl, rfl, rfl, rfl⟩
  · cases m with
    | remove =>
        unfold handleRemove
        dsimp only
        split
        · intro hb hr
          exact ⟨rfl, rfl, rfl, rfl, rfl, rfl, rfl, rfl⟩
        · split
          · intro hb hr
            exact ⟨rfl, rfl, rfl, rfl, rfl, rfl, rfl, rfl⟩
          · split
            · intro hb hr
              exact ⟨rfl, rfl, rfl, rfl, rfl, rfl, rfl, rfl⟩
            · intro hb hr
              exact absurd hr (List.cons_ne_self _ _)
    | move =>
        unfold handleMovePress
        dsimp only
        split
        · rename_i sel hsel
          split
          · intro hb hr
            exact ⟨rfl, rfl, rfl, rfl, rfl, rfl, rfl, rfl⟩
          · split
            · rename_i hvalid
              split
              · intro hb hr
                exact ⟨rfl, rfl, rfl, rfl, rfl, rfl, rfl, rfl⟩
              · intro hb hr
                exact absurd hb (makeMove_board_ne hvalid)
            · split
              · split
                · intro hb hr
                  exact ⟨rfl, rfl, rfl, rfl, rfl, rfl, rfl, rfl⟩
                · intro hb hr
                  exact ⟨rfl, rfl, rfl, rfl, rfl, rfl, rfl, rfl⟩
              · intro hb hr
                exact ⟨rfl, rfl, rfl, rfl, rfl, rfl, rfl, rfl⟩
        · split
          · split
            · intro hb hr
              exact ⟨rfl, rfl, rfl, rfl, rfl, rfl, rfl, rfl⟩
            · intro hb hr
              exact ⟨rfl, rfl, rfl, rfl, rfl, rfl, rfl, rfl⟩
          · intro hb hr
            exact ⟨rfl, rfl, rfl, rfl, rfl, rfl, rfl, rfl⟩

theorem rejection_preserves_core_state_witness :
    (handleSquarePress 3 witState1.1 .move 1 4).1.currentPlayer
        = witState1.1.currentPlayer ∧
    (handleSquarePress 3 witState1.1 .move 1 4).1.gameOver
        = witState1.1.gameOver := by
  have h := rejection_preserves_core_state 3 witState1.1 .move 1 4
    (by decide) (by decide)
  exact ⟨h.1, h.2.2.2.2.1⟩

/-- C9: a press only ever sets `selectedSquare` to the pressed square when
that square holds a piece of the player to move (and such a press does not
change whose turn it is); any press that changes the selection in any
other way clears it to `none`. -/
theorem selection_validity (rpp : Nat) (s : GameState) (m : ActionMode)
    (row col : Nat)
    (h : (handleSquarePress rpp s m row col).1.selectedSquare
      ≠ s.selectedSquare) :
    (handleSquarePress rpp s m row col).1.selectedSquare = none ∨
    ((handleSquarePress rpp s m row col).1.selectedSquare
        = some (row, col) ∧
      (∃ pc, boardGet s.board (row, col) = some pc ∧
        pc.color = s.currentPlayer) ∧
      (handleSquarePress rpp s m row col).1.currentPlayer
        = s.currentPlayer) := by
  revert h
  unfold handleSquarePress
  split
  · intro h
    exact absurd rfl h
  · cases m with
    | remove =>
        unfold handleRemove
        dsimp only
        split
        · intro h
          exact absurd rfl h
        · split
          · intro h
            exact absurd rfl h
          · split
            · intro h
              exact absurd rfl h
            · intro h
              exact absurd rfl h
    | move =>
        unfold handleMovePress
        dsimp only
        split
        · rename_i sel hsel
          split
          · intro h
            exact Or.inl rfl
          · split
            · split
              · intro h
                exact absurd rfl h
              · intro h
                exact Or.inl rfl
            · split
              · rename_i pc hpc
                split
                · rename_i hcol
                  intro h
                  exact Or.inr ⟨rfl, ⟨pc, hpc, hcol⟩, rfl⟩
                · intro h
                  exact Or.inl rfl
              · intro h
                exact Or.inl rfl
        · rename_i hsel
          split
          · rename_i pc hpc
            split
            · rename_i hcol
              intro h
              exact Or.inr ⟨rfl, ⟨pc, hpc, hcol⟩, rfl⟩
            · intro h
              exact absurd rfl h
          · intro h
            exact absurd rfl h

theorem selection_validity_witness :
    (handleSquarePress 3 initialGameState .move 6 4).1.selectedSquare
        = some (6, 4) ∧
    (handleSquarePress 3 initialGameState .move 6 4).1.currentPlayer
        = initialGameState.currentPlayer := by
  have h := selection_validity 3 initialGameState .move 6 4 (by decide)
  rcases h with h | ⟨h1, -, h3⟩
  · exact absurd h (by decide)
  · exact ⟨h1, h3⟩

/-- C10: the unbudgeted controller accepts a removal of any empty,
not-yet-removed square while the game is live - whatever the number of
prior removals, since this variant tracks no removal quota at all: the
square joins the ledger and the turn passes without any piece moving. -/
theorem removal_unlimited_nb (s : GameStateNB) (row col : Nat)
    (hgo : s.gameOver = false)
    (hmem : ((row, col) : Position) ∉ s.removedSquares)
    (hempty : boardGet s.board (row, col) = none) :
    handleSquarePressNB s .remove row col =
      ({ s with
          removedSquares := (row, col) :: s.removedSquares
          currentPlayer := s.currentPlayer.opposite }, .move) := by
  unfold handleSquarePressNB handleRemoveNB
  dsimp only
  rw [if_neg (by simp [hgo] : ¬s.gameOver = true)]
  rw [if_neg hmem]
  rw [hempty]

/-- An unbudgeted-controller state in which six squares have already been
removed. -/
def manyRemovedNB : GameStateNB :=
  { initialGameStateNB with
      removedSquares := [(2, 0), (2, 1), (2, 2), (2, 3), (2, 4), (2, 5)] }

theorem removal_unlimited_nb_witness :
    handleSquarePressNB manyRemovedNB .remove 3 3 =
      ({ manyRemovedNB with
          removedSquares := (3, 3) :: manyRemovedNB.removedSquares
          currentPlayer := manyRemovedNB.currentPlayer.opposite }, .move) :=
  removal_unlimited_nb manyRemovedNB 3 3 rfl (by decide) (by decide)

end Chess
